import Mathlib

/-!
Verification of the HugeCTR sparse_operation_kit DistributedEmbedding layer.

The visible source (`sparse_operation_kit/embeddings/distributed_embedding.py`)
is a thin wrapper: its `__init__` stores the configuration and its `call`
type-checks the input, extracts `values` and the row coordinates of
`indices`, and delegates to the native plugin
(`plugin_sparse_fprop` over an `all_gather_dispatcher` →
`csr_conversion_distributed` → `distributed` executor →
`reduce_scatter_dispatcher` pipeline).  The native pipeline itself is not
part of the visible source, so it is modelled here from the specification
of its components (KeyRouter, AllGatherDispatcher, IndexConverter,
EmbeddingShard, DistributedExecutor, ReduceScatterDispatcher); the wrapper
is embedded directly from the Python source.  Floating-point embedding
values are modelled by exact rationals.
-/

/-- Combiner choice for intra-slot reduction (`combiner` argument of the
layer): `Sum` or `Mean`. -/
inductive Combiner where
  | Sum : Combiner
  | Mean : Combiner
deriving DecidableEq, Repr

/-- Error taxonomy of the distributed embedding core. -/
inductive EmbError where
  | InputShapeError : EmbError
  | OutOfRangeError : EmbError
  | CommunicationError : EmbError
deriving DecidableEq, Repr

/-- Errors observable at the Python `call` wrapper: either the wrapper's
own `TypeError` or an error surfaced from the embedding core. -/
inductive CallError where
  | TypeError : CallError
  | emb : EmbError → CallError
deriving DecidableEq, Repr

/-- One embedding row / vector: a list of rational values (modelling the
floating-point `embedding_vec_size`-wide vector). -/
abbrev Vec := List ℚ

/-- The zero vector of width `n`. -/
def vecZero (n : Nat) : Vec := List.replicate n 0

/-- Componentwise vector addition (the black-box `combine` primitive). -/
def vecAdd (a b : Vec) : Vec := List.zipWith (· + ·) a b

/-- Scale a vector by a rational (the black-box `scale` primitive). -/
def vecScale (c : ℚ) (v : Vec) : Vec := v.map (fun x => c * x)

/-- Sum of a list of vectors of width `n`, starting from the zero vector. -/
def vecSum (n : Nat) (vs : List Vec) : Vec := vs.foldl vecAdd (vecZero n)

/-- Modelled from the spec: the global shard state.  The native
`EmbeddingShard` table (one per worker, mutated only by gradient
scatter-add) is absent from the visible source; it is modelled as a total
map from (worker, key) to the embedding row held for that key on that
worker. -/
abbrev Shards := Nat → Nat → Vec

/-- Configuration of the layer, mirroring the recognized options of the
Python `__init__` plus the `worker_count` of the distributed group. -/
structure Config where
  combiner : Combiner
  embedding_vec_size : Nat
  slot_num : Nat
  max_nnz : Nat
  max_feature_num : Nat
  worker_count : Nat

/-- Modelled from the spec (and the wrapper docstring
`gpu_id = key % gpu_num`): the KeyRouter.  The native routing function is
absent from the visible source. -/
def owner (key worker_count : Nat) : Nat := key % worker_count

/-- Modelled from the spec: each worker computes the KeyRouter locally.
The spec requires the computation to use no worker-local randomness, so
the result does not depend on the computing worker's id `wid`. -/
def ownerOnWorker (_wid key worker_count : Nat) : Nat :=
  owner key worker_count

/-- The state stored by `DistributedEmbedding.__init__` (the wrapper's
`self.*` configuration fields), embedded from the Python source. -/
structure DistributedEmbedding where
  combiner : Combiner
  max_vocabulary_size_per_gpu : Nat
  embedding_vec_size : Nat
  slot_num : Nat
  max_nnz : Nat
  max_feature_num : Nat

/-- `DistributedEmbedding.__init__` with `max_feature_num` passed
explicitly: every argument is stored unchanged on `self`. -/
def DistributedEmbedding.init (combiner : Combiner)
    (max_vocabulary_size_per_gpu embedding_vec_size slot_num max_nnz : Nat)
    (max_feature_num : Nat) : DistributedEmbedding :=
  { combiner := combiner
    max_vocabulary_size_per_gpu := max_vocabulary_size_per_gpu
    embedding_vec_size := embedding_vec_size
    slot_num := slot_num
    max_nnz := max_nnz
    max_feature_num := max_feature_num }

/-- `DistributedEmbedding.__init__` with `max_feature_num` omitted: the
Python signature declares `max_feature_num = 1`, so the omitted argument
takes the literal value 1 (the docstring instead promises the default
`slot_num * max_nnz`). -/
def DistributedEmbedding.initDefault (combiner : Combiner)
    (max_vocabulary_size_per_gpu embedding_vec_size slot_num max_nnz : Nat) :
    DistributedEmbedding :=
  DistributedEmbedding.init combiner max_vocabulary_size_per_gpu
    embedding_vec_size slot_num max_nnz 1

/-- The sparse input batch handed to the embedding core: the keys
(`values` of the SparseTensor), one row index per key (the row coordinate
of the corresponding `indices` entry, each row of the
`[batch_size*slot_num, max_nnz]` dense shape being one (sample, slot)
pair), and the batch size. -/
structure SparseInput where
  batch_size : Nat
  values : List Nat
  row_indices : List Nat

/-- The tf.SparseTensor as consumed by the wrapper `call`: `values` holds
the keys, `indices` holds one (row, column) coordinate pair per key, and
`dense_shape` is `(batch_size * slot_num, max_nnz)`. -/
structure SparseTensor where
  values : List Nat
  indices : List (Nat × Nat)
  dense_shape : Nat × Nat

/-- The wrapper's input value: either a tf.SparseTensor or any other
Python value (all non-SparseTensor inputs behave identically under the
`isinstance` check, so they collapse to one constructor with an opaque
tag). -/
inductive TFInput where
  | sparseTensor : SparseTensor → TFInput
  | notSparse : Nat → TFInput

/-- `tf.transpose(indices, perm=[1,0])` on the `[nnz, 2]` index matrix:
the result's row 0 is the list of row coordinates and row 1 the list of
column coordinates. -/
def transposePairs (l : List (Nat × Nat)) : List Nat × List Nat :=
  (l.map Prod.fst, l.map Prod.snd)

/-- The (key, row_index) request pairs of a batch, one per key, in input
order (multiplicity preserved, per the AllGatherDispatcher contract). -/
def requestPairs (inp : SparseInput) : List (Nat × Nat) :=
  inp.values.zip inp.row_indices

/-- The keys of the batch whose row index is `r`, in input order. -/
def keysOfRow (inp : SparseInput) (r : Nat) : List Nat :=
  ((requestPairs inp).filter (fun p => p.2 == r)).map Prod.fst

/-- Number of keys the batch contributes to sample `s` (a sample spans
the `slot_num` consecutive rows `s*slot_num .. s*slot_num+slot_num-1`, so
its rows are those with `r / slot_num = s`). -/
def sampleCount (cfg : Config) (inp : SparseInput) (s : Nat) : Nat :=
  (inp.row_indices.filter (fun r => r / cfg.slot_num == s)).length

/-- Modelled from the spec: the DistributedExecutor's input validation
(step (1) of the forward algorithm, absent from the visible source) —
keys and row indices correspond one to one, every row index is in range,
no row holds more than `max_nnz` keys, and no sample holds more than
`max_feature_num` keys.  Any violation is an `InputShapeError`. -/
def validInput (cfg : Config) (inp : SparseInput) : Bool :=
  (inp.values.length == inp.row_indices.length)
  && inp.row_indices.all (fun r => decide (r < inp.batch_size * cfg.slot_num))
  && (List.range (inp.batch_size * cfg.slot_num)).all
      (fun r => decide ((keysOfRow inp r).length ≤ cfg.max_nnz))
  && (List.range inp.batch_size).all
      (fun s => decide (sampleCount cfg inp s ≤ cfg.max_feature_num))

/-- Modelled from the spec: the combiner reduction over one row's valid
keys (steps (4)–(6) of the forward algorithm, absent from the visible
source).  Each key's row is looked up on its owning worker's shard; Sum
keeps the exact sum, Mean divides the sum by the count of valid keys, and
a row with zero valid keys yields the zero vector. -/
def combineRow (cfg : Config) (shards : Shards) (keys : List Nat) : Vec :=
  let rows := keys.map (fun k => shards (owner k cfg.worker_count) k)
  match cfg.combiner with
  | Combiner.Sum => vecSum cfg.embedding_vec_size rows
  | Combiner.Mean =>
      if keys.length = 0 then vecZero cfg.embedding_vec_size
      else vecScale ((keys.length : ℚ))⁻¹ (vecSum cfg.embedding_vec_size rows)

/-- Modelled from the spec: the assembled forward output (absent from the
visible source) — the `[batch_size, slot_num, embedding_vec_size]` tensor
whose entry at (sample s, slot t) is the CombinedVector of row
`s * slot_num + t`, i.e. ordered by row_index. -/
def forwardOut (cfg : Config) (shards : Shards) (inp : SparseInput) :
    List (List Vec) :=
  (List.range inp.batch_size).map (fun s =>
    (List.range cfg.slot_num).map (fun t =>
      combineRow cfg shards (keysOfRow inp (s * cfg.slot_num + t))))

/-- Modelled from the spec: the multiset (as an ordered list, preserving
multiplicity and arrival order) of shard rows `(owner, key)` read by the
forward lookup, one read per request pair. -/
def forwardReads (cfg : Config) (inp : SparseInput) : List (Nat × Nat) :=
  (requestPairs inp).map (fun p => (owner p.1 cfg.worker_count, p.1))

/-- Modelled from the spec: the combiner Jacobian used on the backward
path — 1 for Sum, `1 / valid_count` of the key's row for Mean. -/
def jacobian (cfg : Config) (inp : SparseInput) (r : Nat) : ℚ :=
  match cfg.combiner with
  | Combiner.Sum => 1
  | Combiner.Mean => ((keysOfRow inp r).length : ℚ)⁻¹

/-- Modelled from the spec: the backward gradient-scatter plan (absent
from the visible source).  For each forward request pair (key, row), the
output gradient of that row, scaled by the combiner Jacobian, is
deposited into the shard row `(owner key, key)` — reusing the forward
dispatch plan, one deposit per forward read. -/
def gradScatter (cfg : Config) (inp : SparseInput) (grad : Nat → Vec) :
    List ((Nat × Nat) × Vec) :=
  (requestPairs inp).map (fun p =>
    ((owner p.1 cfg.worker_count, p.1), vecScale (jacobian cfg inp p.2) (grad p.2)))

/-- Modelled from the spec: applying the gradient-scatter plan by
scatter-add into the owning workers' shards. -/
def backward (cfg : Config) (shards : Shards) (inp : SparseInput)
    (grad : Nat → Vec) : Shards :=
  (gradScatter cfg inp grad).foldl
    (fun sh d => fun w k =>
      if w = d.1.1 ∧ k = d.1.2 then vecAdd (sh w k) d.2 else sh w k)
    shards

/-- The all-ones output gradient of width `n`. -/
def onesGrad (n : Nat) : Nat → Vec := fun _ => List.replicate n 1

/-- Result of one training step of the core: the output tensor or an
error, the resulting shard state, and the trace of shard rows read. -/
structure StepResult where
  output : Except EmbError (List (List Vec))
  shards : Shards
  reads : List (Nat × Nat)

/-- Modelled from the spec: one training step of the DistributedExecutor
(absent from the visible source).  It validates the input (raising
`InputShapeError` before any shard access), runs the all-gather
collective (raising `CommunicationError` if any worker of the group is
unreachable, before any shard access), then performs the forward lookup
and the backward gradient scatter-add with the supplied output
gradient. -/
def trainStep (cfg : Config) (reachable : Nat → Bool) (shards : Shards)
    (inp : SparseInput) (grad : Nat → Vec) : StepResult :=
  if validInput cfg inp then
    if (List.range cfg.worker_count).all reachable then
      { output := Except.ok (forwardOut cfg shards inp)
        shards := backward cfg shards inp grad
        reads := forwardReads cfg inp }
    else
      { output := Except.error EmbError.CommunicationError
        shards := shards
        reads := [] }
  else
    { output := Except.error EmbError.InputShapeError
      shards := shards
      reads := [] }

/-- Result observable at the Python `call` wrapper. -/
structure CallResult where
  output : Except CallError (List (List Vec))
  shards : Shards
  reads : List (Nat × Nat)

/-- The SparseInput the wrapper hands to the core: `values` verbatim and
the row coordinates `tf.transpose(inputs.indices, perm=[1,0])[0]`; the
batch size is recovered from `dense_shape = (batch_size*slot_num, max_nnz)`. -/
def inputOfST (cfg : Config) (st : SparseTensor) : SparseInput :=
  { batch_size := st.dense_shape.1 / cfg.slot_num
    values := st.values
    row_indices := (transposePairs st.indices).1 }

/-- `DistributedEmbedding.call`, embedded from the Python source: a
non-SparseTensor input raises `TypeError` before anything else runs;
a SparseTensor input has its `values` and the row coordinates of its
`indices` passed to `plugin_sparse_fprop` (modelled by `trainStep`). -/
def call (cfg : Config) (reachable : Nat → Bool) (shards : Shards)
    (grad : Nat → Vec) (inputs : TFInput) : CallResult :=
  match inputs with
  | TFInput.notSparse _ =>
      { output := Except.error CallError.TypeError
        shards := shards
        reads := [] }
  | TFInput.sparseTensor st =>
      let r := trainStep cfg reachable shards (inputOfST cfg st) grad
      { output :=
          match r.output with
          | Except.ok o => Except.ok o
          | Except.error e => Except.error (CallError.emb e)
        shards := r.shards
        reads := r.reads }

instance {ε α : Type} [DecidableEq ε] [DecidableEq α] :
    DecidableEq (Except ε α) := fun x y =>
  match x, y with
  | Except.ok a, Except.ok b =>
      if h : a = b then isTrue (by rw [h]) else isFalse (by simp [h])
  | Except.error a, Except.error b =>
      if h : a = b then isTrue (by rw [h]) else isFalse (by simp [h])
  | Except.ok _, Except.error _ => isFalse (by simp)
  | Except.error _, Except.ok _ => isFalse (by simp)

/-- The concrete scenario configuration with the Sum combiner:
worker_count=2, slot_num=1, max_nnz=2, embedding_vec_size=2,
max_feature_num=slot_num*max_nnz=2. -/
def cfgS : Config :=
  { combiner := Combiner.Sum, embedding_vec_size := 2, slot_num := 1,
    max_nnz := 2, max_feature_num := 2, worker_count := 2 }

/-- The same scenario configuration with the Mean combiner. -/
def cfgM : Config :=
  { combiner := Combiner.Mean, embedding_vec_size := 2, slot_num := 1,
    max_nnz := 2, max_feature_num := 2, worker_count := 2 }

/-- Scenario shard state: key 4 (owned by worker 0) holds [1,1], key 5
(owned by worker 1) holds [2,2], all other rows are zero. -/
def shards0 : Shards := fun w k =>
  if w = 0 ∧ k = 4 then [1, 1]
  else if w = 1 ∧ k = 5 then [2, 2]
  else [0, 0]

/-- Scenario input: keys=[4,5], row_indices=[0,0], batch_size=1. -/
def inp0 : SparseInput :=
  { batch_size := 1, values := [4, 5], row_indices := [0, 0] }

/-- The all-reachable communication state. -/
def reachAll : Nat → Bool := fun _ => true

/-- A communication state in which worker 1 is unreachable. -/
def reachNo1 : Nat → Bool := fun w => w == 0

/-- An input whose sample 0 holds three keys (more than the scenario's
`max_feature_num` of 2). -/
def inpOver : SparseInput :=
  { batch_size := 1, values := [1, 2, 3], row_indices := [0, 0, 0] }

/-- The scenario batch as a SparseTensor (row coordinates [0,0],
column coordinates [0,1], dense_shape (batch_size*slot_num, max_nnz)
= (1,2)). -/
def stA : SparseTensor :=
  { values := [4, 5], indices := [(0, 0), (0, 1)], dense_shape := (1, 2) }

/-- The scenario batch with the same values and row coordinates as `stA`
but different column coordinates. -/
def stB : SparseTensor :=
  { values := [4, 5], indices := [(0, 7), (0, 9)], dense_shape := (1, 2) }

/-- The empty-slot scenario configuration: Mean combiner, slot_num=2. -/
def cfgE : Config :=
  { combiner := Combiner.Mean, embedding_vec_size := 2, slot_num := 2,
    max_nnz := 2, max_feature_num := 4, worker_count := 2 }

/-- The empty-slot scenario input: one key in slot 0 of sample 0, none
in slot 1. -/
def inpE : SparseInput :=
  { batch_size := 1, values := [4], row_indices := [0] }

/-- C1: `DistributedEmbedding` constructed with `max_feature_num`
omitted stores the Python default literal 1, not the documented
`slot_num * max_nnz` (here 2*3 = 6). -/
theorem sok_default_max_feature_num :
    (DistributedEmbedding.initDefault Combiner.Sum 10 4 2 3).max_feature_num = 1 ∧
    (DistributedEmbedding.initDefault Combiner.Sum 10 4 2 3).max_feature_num ≠ 2 * 3 := by
  constructor
  · rfl
  · decide

/-- C5: in the concrete scenario (worker_count=2, keys=[4,5],
row_indices=[0,0], slot_num=1, max_nnz=2, embedding_vec_size=2, shard
rows [1,1] for key 4 on worker 0 and [2,2] for key 5 on worker 1), the
forward pass yields [3,3] for row 0 under Sum and [3/2, 3/2] under
Mean. -/
theorem sok_scenario_sum_mean :
    (trainStep cfgS reachAll shards0 inp0 (onesGrad 2)).output =
      Except.ok [[[(3 : ℚ), 3]]] ∧
    (trainStep cfgM reachAll shards0 inp0 (onesGrad 2)).output =
      Except.ok [[[(3 : ℚ)/2, 3/2]]] := by
  constructor <;>
    · simp [trainStep, validInput, sampleCount, keysOfRow, requestPairs,
        forwardOut, combineRow, vecSum, vecAdd, vecZero, vecScale, owner,
        shards0, inp0, cfgS, cfgM, reachAll, List.range_succ]
      norm_num

/-- The row of the forward output tensor for sample `s`. -/
theorem forwardOut_row (cfg : Config) (shards : Shards) (inp : SparseInput)
    (s : Nat) (hs : s < inp.batch_size) :
    (forwardOut cfg shards inp).getD s [] =
      (List.range cfg.slot_num).map (fun t =>
        combineRow cfg shards (keysOfRow inp (s * cfg.slot_num + t))) := by
  unfold forwardOut
  rw [List.getD_eq_getElem _ _ (by simpa using hs), List.getElem_map,
    List.getElem_range]

/-- The entry of the forward output tensor at (sample `s`, slot `t`). -/
theorem forwardOut_entry (cfg : Config) (shards : Shards) (inp : SparseInput)
    (s t : Nat) (hs : s < inp.batch_size) (ht : t < cfg.slot_num) :
    ((forwardOut cfg shards inp).getD s []).getD t [] =
      combineRow cfg shards (keysOfRow inp (s * cfg.slot_num + t)) := by
  rw [forwardOut_row cfg shards inp s hs]
  rw [List.getD_eq_getElem _ _ (by simpa using ht), List.getElem_map,
    List.getElem_range]

/-- The combiner reduction over an empty key list is the zero vector,
for either combiner. -/
theorem combineRow_nil (cfg : Config) (shards : Shards) :
    combineRow cfg shards [] = vecZero cfg.embedding_vec_size := by
  cases hc : cfg.combiner <;> simp [combineRow, hc, vecSum]

/-- C3: a (sample, slot) pair with zero valid keys receives an entry in
the forward output (never a missing entry), and that entry is the zero
CombinedVector, under either combiner — in particular Mean with zero
valid keys yields the zero vector, with no division by zero. -/
theorem sok_empty_slot_zero (cfg : Config) (shards : Shards)
    (inp : SparseInput) (s t : Nat) (hs : s < inp.batch_size)
    (ht : t < cfg.slot_num)
    (hempty : keysOfRow inp (s * cfg.slot_num + t) = []) :
    s < (forwardOut cfg shards inp).length ∧
    t < ((forwardOut cfg shards inp).getD s []).length ∧
    ((forwardOut cfg shards inp).getD s []).getD t [] =
      vecZero cfg.embedding_vec_size := by
  refine ⟨by simpa [forwardOut] using hs, ?_, ?_⟩
  · rw [forwardOut_row cfg shards inp s hs]
    simpa using ht
  · rw [forwardOut_entry cfg shards inp s t hs ht, hempty, combineRow_nil]

/-- Witness for C3: sample 0, slot 1 of the empty-slot scenario holds no
key and its output entry is the zero vector under the Mean combiner. -/
theorem sok_empty_slot_zero_witness :
    0 < (forwardOut cfgE shards0 inpE).length ∧
    1 < ((forwardOut cfgE shards0 inpE).getD 0 []).length ∧
    ((forwardOut cfgE shards0 inpE).getD 0 []).getD 1 [] =
      vecZero cfgE.embedding_vec_size :=
  sok_empty_slot_zero cfgE shards0 inpE 0 1 (by decide) (by decide) (by decide)

/-- C2: for every worker_count ≥ 1, the key-to-owner routing is
`key mod worker_count`, it is deterministic (repeated calls agree), every
worker's local computation of it yields the identical result, and the
result is a valid worker id. -/
theorem sok_owner_routing (key worker_count w1 w2 : Nat)
    (h : 1 ≤ worker_count) :
    owner key worker_count = key % worker_count ∧
    owner key worker_count = owner key worker_count ∧
    ownerOnWorker w1 key worker_count = ownerOnWorker w2 key worker_count ∧
    owner key worker_count < worker_count := by
  refine ⟨rfl, rfl, rfl, ?_⟩
  exact Nat.mod_lt _ (Nat.lt_of_lt_of_le Nat.zero_lt_one h)

/-- Witness for C2 at key 7, worker_count 3, workers 0 and 2. -/
theorem sok_owner_routing_witness :
    owner 7 3 = 7 % 3 ∧
    owner 7 3 = owner 7 3 ∧
    ownerOnWorker 0 7 3 = ownerOnWorker 2 7 3 ∧
    owner 7 3 < 3 :=
  sok_owner_routing 7 3 0 2 (by decide)

/-- C4: an input batch containing a sample whose total key count exceeds
`max_feature_num` makes the step fail with `InputShapeError`, with no
shard row read and every shard left unchanged. -/
theorem sok_feature_bound_guard (cfg : Config) (reachable : Nat → Bool)
    (shards : Shards) (inp : SparseInput) (grad : Nat → Vec) (s : Nat)
    (hs : s < inp.batch_size)
    (hover : cfg.max_feature_num < sampleCount cfg inp s) :
    (trainStep cfg reachable shards inp grad).output =
      Except.error EmbError.InputShapeError ∧
    (trainStep cfg reachable shards inp grad).shards = shards ∧
    (trainStep cfg reachable shards inp grad).reads = [] := by
  have hv : validInput cfg inp = false := by
    cases hb : validInput cfg inp
    · rfl
    · exfalso
      unfold validInput at hb
      simp only [Bool.and_eq_true, List.all_eq_true, decide_eq_true_eq] at hb
      have := hb.2 s (List.mem_range.mpr hs)
      omega
  simp [trainStep, hv]

/-- Witness for C4: the scenario configuration with a three-key sample
(max_feature_num = 2). -/
theorem sok_feature_bound_guard_witness :
    (trainStep cfgS reachAll shards0 inpOver (onesGrad 2)).output =
      Except.error EmbError.InputShapeError ∧
    (trainStep cfgS reachAll shards0 inpOver (onesGrad 2)).shards = shards0 ∧
    (trainStep cfgS reachAll shards0 inpOver (onesGrad 2)).reads = [] :=
  sok_feature_bound_guard cfgS reachAll shards0 inpOver (onesGrad 2) 0
    (by decide) (by decide)

/-- C7: if any worker of the group is unreachable during the all-gather
collective, the step fails with `CommunicationError`, no output tensor is
produced, no shard row is read, and every shard is left unchanged. -/
theorem sok_comm_failure (cfg : Config) (reachable : Nat → Bool)
    (shards : Shards) (inp : SparseInput) (grad : Nat → Vec) (p : Nat)
    (hv : validInput cfg inp = true) (hp : p < cfg.worker_count)
    (hur : reachable p = false) :
    (trainStep cfg reachable shards inp grad).output =
      Except.error EmbError.CommunicationError ∧
    (trainStep cfg reachable shards inp grad).shards = shards ∧
    (trainStep cfg reachable shards inp grad).reads = [] := by
  have hall : (List.range cfg.worker_count).all reachable = false := by
    cases hb : (List.range cfg.worker_count).all reachable
    · rfl
    · exfalso
      rw [List.all_eq_true] at hb
      have := hb p (List.mem_range.mpr hp)
      rw [hur] at this
      exact Bool.false_ne_true this
  simp [trainStep, hv, hall]

/-- Witness for C7: the scenario batch with worker 1 unreachable. -/
theorem sok_comm_failure_witness :
    (trainStep cfgS reachNo1 shards0 inp0 (onesGrad 2)).output =
      Except.error EmbError.CommunicationError ∧
    (trainStep cfgS reachNo1 shards0 inp0 (onesGrad 2)).shards = shards0 ∧
    (trainStep cfgS reachNo1 shards0 inp0 (onesGrad 2)).reads = [] :=
  sok_comm_failure cfgS reachNo1 shards0 inp0 (onesGrad 2) 1
    (by decide) (by decide) (by decide)

/-- Scaling the all-ones vector yields the constant vector of the scale. -/
theorem vecScale_replicate_one (c : ℚ) (n : Nat) :
    vecScale c (List.replicate n 1) = List.replicate n c := by
  simp [vecScale, List.map_replicate]

/-- Every request pair's key is among the keys of its own row, so a
contributing key's row has at least one valid key. -/
theorem requestPairs_key_mem (inp : SparseInput) (p : Nat × Nat)
    (hp : p ∈ requestPairs inp) : p.1 ∈ keysOfRow inp p.2 := by
  unfold keysOfRow
  exact List.mem_map.mpr ⟨p, List.mem_filter.mpr ⟨hp, by simp⟩, rfl⟩

/-- C6: with an all-ones output gradient, the backward scatter plan
targets exactly the shard rows read by the forward pass, in the same
order (hence as multisets); under Sum each deposit is the all-ones vector
(magnitude 1 per forward read); under Mean each contributing request pair
deposits the constant vector 1/valid_count of its row, and every
contributing row has valid_count ≥ 1. -/
theorem sok_gradient_roundtrip (cfg : Config) (_shards : Shards)
    (inp : SparseInput) (_hv : validInput cfg inp = true) :
    ((gradScatter cfg inp (onesGrad cfg.embedding_vec_size)).map Prod.fst =
      forwardReads cfg inp) ∧
    (((gradScatter cfg inp (onesGrad cfg.embedding_vec_size)).map Prod.fst :
        Multiset (Nat × Nat)) = (forwardReads cfg inp : Multiset (Nat × Nat))) ∧
    (cfg.combiner = Combiner.Sum →
      ∀ d ∈ gradScatter cfg inp (onesGrad cfg.embedding_vec_size),
        d.2 = List.replicate cfg.embedding_vec_size (1 : ℚ)) ∧
    (cfg.combiner = Combiner.Mean →
      gradScatter cfg inp (onesGrad cfg.embedding_vec_size) =
        (requestPairs inp).map (fun p =>
          ((owner p.1 cfg.worker_count, p.1),
            List.replicate cfg.embedding_vec_size
              (((keysOfRow inp p.2).length : ℚ))⁻¹))) ∧
    (∀ p ∈ requestPairs inp, 1 ≤ (keysOfRow inp p.2).length) := by
  have hmap : (gradScatter cfg inp (onesGrad cfg.embedding_vec_size)).map
      Prod.fst = forwardReads cfg inp := by
    simp only [gradScatter, forwardReads, List.map_map]
    rfl
  refine ⟨hmap, by rw [hmap], ?_, ?_, ?_⟩
  · intro hc d hd
    simp only [gradScatter, List.mem_map] at hd
    obtain ⟨p, _, rfl⟩ := hd
    simp [jacobian, hc, onesGrad, vecScale_replicate_one]
  · intro hc
    unfold gradScatter
    apply List.map_congr_left
    intro p _
    simp [jacobian, hc, onesGrad, vecScale_replicate_one]
  · intro p hp
    exact List.length_pos_of_mem (requestPairs_key_mem inp p hp)

/-- Witness for C6 at the concrete scenario batch (Sum configuration). -/
theorem sok_gradient_roundtrip_witness :
    ((gradScatter cfgS inp0 (onesGrad cfgS.embedding_vec_size)).map Prod.fst =
      forwardReads cfgS inp0) ∧
    (((gradScatter cfgS inp0 (onesGrad cfgS.embedding_vec_size)).map Prod.fst :
        Multiset (Nat × Nat)) = (forwardReads cfgS inp0 : Multiset (Nat × Nat))) ∧
    (cfgS.combiner = Combiner.Sum →
      ∀ d ∈ gradScatter cfgS inp0 (onesGrad cfgS.embedding_vec_size),
        d.2 = List.replicate cfgS.embedding_vec_size (1 : ℚ)) ∧
    (cfgS.combiner = Combiner.Mean →
      gradScatter cfgS inp0 (onesGrad cfgS.embedding_vec_size) =
        (requestPairs inp0).map (fun p =>
          ((owner p.1 cfgS.worker_count, p.1),
            List.replicate cfgS.embedding_vec_size
              (((keysOfRow inp0 p.2).length : ℚ))⁻¹))) ∧
    (∀ p ∈ requestPairs inp0, 1 ≤ (keysOfRow inp0 p.2).length) :=
  sok_gradient_roundtrip cfgS shards0 inp0 (by decide)

/-- Folding componentwise addition over vectors of the accumulator's
width keeps the width. -/
theorem foldl_vecAdd_length :
    ∀ (vs : List Vec) (acc : Vec), (∀ v ∈ vs, v.length = acc.length) →
      (vs.foldl vecAdd acc).length = acc.length
  | [], _, _ => rfl
  | v :: vs, acc, h => by
    rw [List.foldl_cons]
    have h1 : (vecAdd acc v).length = acc.length := by
      simp only [vecAdd, List.length_zipWith, h v (by simp)]
      omega
    rw [foldl_vecAdd_length vs (vecAdd acc v)
      (fun v' hv' => by rw [h1, h v' (List.mem_cons_of_mem _ hv')]), h1]

/-- The sum of vectors of width `n` has width `n`. -/
theorem vecSum_length (n : Nat) (vs : List Vec)
    (h : ∀ v ∈ vs, v.length = n) : (vecSum n vs).length = n := by
  unfold vecSum
  rw [foldl_vecAdd_length vs (vecZero n)
    (fun v hv => by rw [h v hv]; simp [vecZero])]
  simp [vecZero]

/-- The combiner reduction over shard rows of width
`embedding_vec_size` yields a vector of width `embedding_vec_size`. -/
theorem combineRow_length (cfg : Config) (shards : Shards)
    (keys : List Nat)
    (hwf : ∀ w k, (shards w k).length = cfg.embedding_vec_size) :
    (combineRow cfg shards keys).length = cfg.embedding_vec_size := by
  have hrows : ∀ v ∈ keys.map
      (fun k => shards (owner k cfg.worker_count) k),
      v.length = cfg.embedding_vec_size := by
    intro v hvmem
    obtain ⟨k, _, rfl⟩ := List.mem_map.mp hvmem
    exact hwf _ _
  cases hc : cfg.combiner
  · simp only [combineRow, hc]
    exact vecSum_length _ _ hrows
  · simp only [combineRow, hc]
    split
    · simp [vecZero]
    · simp only [vecScale, List.length_map]
      exact vecSum_length _ _ hrows

/-- C8: for a SparseTensor input accepted by validation, with every
worker reachable and every shard row of width `embedding_vec_size`, the
forward call returns a dense tensor of shape
(batch_size, slot_num, embedding_vec_size) — batch_size being
`dense_shape.1 / slot_num` — whose entry at (sample s, slot t) is the
CombinedVector of row_index `s * slot_num + t` (ordered by row_index). -/
theorem sok_call_output_shape (cfg : Config) (reachable : Nat → Bool)
    (shards : Shards) (grad : Nat → Vec) (st : SparseTensor)
    (hwf : ∀ w k, (shards w k).length = cfg.embedding_vec_size)
    (hv : validInput cfg (inputOfST cfg st) = true)
    (hr : (List.range cfg.worker_count).all reachable = true) :
    ∃ out,
      (call cfg reachable shards grad (TFInput.sparseTensor st)).output =
        Except.ok out ∧
      out.length = st.dense_shape.1 / cfg.slot_num ∧
      (∀ row ∈ out, row.length = cfg.slot_num) ∧
      (∀ row ∈ out, ∀ v ∈ row, v.length = cfg.embedding_vec_size) ∧
      (∀ s t, s < st.dense_shape.1 / cfg.slot_num → t < cfg.slot_num →
        (out.getD s []).getD t [] =
          combineRow cfg shards
            (keysOfRow (inputOfST cfg st) (s * cfg.slot_num + t))) := by
  refine ⟨forwardOut cfg shards (inputOfST cfg st), ?_, ?_, ?_, ?_, ?_⟩
  · simp [call, trainStep, hv, hr]
  · simp [forwardOut, inputOfST]
  · intro row hrow
    simp only [forwardOut, List.mem_map] at hrow
    obtain ⟨s, _, rfl⟩ := hrow
    simp
  · intro row hrow v hvm
    simp only [forwardOut, List.mem_map] at hrow
    obtain ⟨s, _, rfl⟩ := hrow
    obtain ⟨t, _, rfl⟩ := List.mem_map.mp hvm
    exact combineRow_length cfg shards _ hwf
  · intro s t hs ht
    exact forwardOut_entry cfg shards (inputOfST cfg st) s t hs ht

/-- Each row of `shards0` has width 2. -/
theorem shards0_length (w k : Nat) : (shards0 w k).length = 2 := by
  unfold shards0
  split
  · rfl
  · split <;> rfl

/-- Witness for C8 at the scenario SparseTensor `stA` under the Sum
configuration. -/
theorem sok_call_output_shape_witness :
    ∃ out,
      (call cfgS reachAll shards0 (onesGrad 2)
        (TFInput.sparseTensor stA)).output = Except.ok out ∧
      out.length = stA.dense_shape.1 / cfgS.slot_num ∧
      (∀ row ∈ out, row.length = cfgS.slot_num) ∧
      (∀ row ∈ out, ∀ v ∈ row, v.length = cfgS.embedding_vec_size) ∧
      (∀ s t, s < stA.dense_shape.1 / cfgS.slot_num → t < cfgS.slot_num →
        (out.getD s []).getD t [] =
          combineRow cfgS shards0
            (keysOfRow (inputOfST cfgS stA) (s * cfgS.slot_num + t))) :=
  sok_call_output_shape cfgS reachAll shards0 (onesGrad 2) stA
    (fun w k => shards0_length w k) (by decide) (by decide)

/-- C9: a non-SparseTensor input to `call` raises `TypeError` with no
shard row read and every shard left unchanged — the type check happens
before any lookup or communication. -/
theorem sok_typeerror_first (cfg : Config) (reachable : Nat → Bool)
    (shards : Shards) (grad : Nat → Vec) (tag : Nat) :
    call cfg reachable shards grad (TFInput.notSparse tag) =
      { output := Except.error CallError.TypeError,
        shards := shards, reads := [] } := rfl

/-- C10: `call` reads only `values`, the row coordinates of `indices`,
and `dense_shape` of its SparseTensor input: two inputs agreeing on
those (with arbitrary column coordinates) produce identical results, and
the row indices handed to the pipeline are exactly the row coordinates. -/
theorem sok_column_coords_ignored (cfg : Config) (reachable : Nat → Bool)
    (shards : Shards) (grad : Nat → Vec) (st1 st2 : SparseTensor)
    (hvals : st1.values = st2.values)
    (hrows : st1.indices.map Prod.fst = st2.indices.map Prod.fst)
    (hshape : st1.dense_shape = st2.dense_shape) :
    (inputOfST cfg st1).row_indices = st1.indices.map Prod.fst ∧
    call cfg reachable shards grad (TFInput.sparseTensor st1) =
      call cfg reachable shards grad (TFInput.sparseTensor st2) := by
  refine ⟨rfl, ?_⟩
  have hinp : inputOfST cfg st1 = inputOfST cfg st2 := by
    simp [inputOfST, transposePairs, hvals, hrows, hshape]
  simp [call, hinp]

/-- Witness for C10: the scenario SparseTensors `stA` and `stB` share
values and row coordinates but have different column coordinates. -/
theorem sok_column_coords_ignored_witness :
    (inputOfST cfgS stA).row_indices = stA.indices.map Prod.fst ∧
    call cfgS reachAll shards0 (onesGrad 2) (TFInput.sparseTensor stA) =
      call cfgS reachAll shards0 (onesGrad 2) (TFInput.sparseTensor stB) :=
  sok_column_coords_ignored cfgS reachAll shards0 (onesGrad 2) stA stB
    (by decide) (by decide) (by decide)
